import Mathlib

/-!
Shallow embedding of the request-processing pipeline (middleware chain, cache
strategies, rate limiter, circuit breaker) of the `apaichon/api-design`
repository, together with proofs of the specification's claims about it.

Conventions of the embedding:
* HTTP handlers are modelled as functions from a request to the list of
  writer operations (`WriteHeader`, header-map assignment, `Write`) they
  perform, in order; interpreting such a trace against a response-writer
  state reproduces `net/http` semantics (first `WriteHeader` wins, a `Write`
  before any `WriteHeader` implicitly writes status 200).
* Go maps (`url.Values`, `http.Header`, the Redis store, the limiter
  registry) are modelled as association lists with distinct keys.
* Durations and instants (`time.Duration`, `time.Time`) are natural numbers;
  `time.Since(t)` at instant `now` is `now - t`.
* The SHA-256 hex digest used by key hashing is abstracted as a function
  parameter `hash : String → String`: every claim depends only on the digest
  being a deterministic function of its input.
* Percent-escaping inside `url.Values.Encode` is omitted: it is a
  deterministic character-level map and no claim distinguishes escaped from
  unescaped text.
-/

namespace Pipeline

/-- An HTTP request, restricted to the fields the pipeline reads:
method, URL path, parsed query (`url.Values`: a map from parameter name to
the list of its values, modelled as an association list with distinct keys),
headers, and the remote address used as the rate-limit key. -/
structure Request where
  method : String
  path : String
  query : List (String × List String)
  headers : List (String × String)
  remoteAddr : String
deriving DecidableEq

/-- One operation performed by a handler against its `http.ResponseWriter`:
`w.Header()[k] = v`, `w.WriteHeader(code)`, or `w.Write(bytes)`. -/
inductive WriteEvent where
  | setHeader (k v : String)
  | header (code : Nat)
  | write (bytes : List Nat)
deriving DecidableEq

/-- A handler (`http.HandlerFunc`) is modelled by the trace of writer
operations it performs on a given request. -/
abbrev Handler := Request → List WriteEvent

/-- Go map assignment `m[k] = v` on a header map modelled as an association
list: replaces the value when the key is present, appends otherwise. -/
def headerSet : List (String × String) → String → String → List (String × String)
  | [], k, v => [(k, v)]
  | kv :: rest, k, v => if kv.1 = k then (k, v) :: rest else kv :: headerSet rest k v

/-- `http.Header.Get`: first value for the key, `""` when absent. -/
def headerGet : List (String × String) → String → String
  | [], _ => ""
  | kv :: rest, k => if kv.1 = k then kv.2 else headerGet rest k

/-- The state of the real response writer as observed by the caller:
status (`none` until a header is written), header map, accumulated body. -/
structure RespState where
  status : Option Nat
  headers : List (String × String)
  body : List Nat
deriving DecidableEq

/-- `net/http` semantics of one writer operation: the first `WriteHeader`
fixes the status (later calls are superfluous), headers mutate only before
the status is written, and a `Write` before any `WriteHeader` implicitly
writes status 200. -/
def applyEvent (s : RespState) : WriteEvent → RespState
  | .setHeader k v =>
    if s.status.isSome then s else { s with headers := headerSet s.headers k v }
  | .header code =>
    if s.status.isSome then s else { s with status := some code }
  | .write bytes =>
    let s' := if s.status.isSome then s else { s with status := some 200 }
    { s' with body := s'.body ++ bytes }

/-- Run a trace of writer operations against a writer state. -/
def applyEvents (s : RespState) (evs : List WriteEvent) : RespState :=
  evs.foldl applyEvent s

/-- The response the caller observes when a handler's trace runs against a
writer whose header map initially holds `hs`. -/
def deliver (hs : List (String × String)) (evs : List WriteEvent) : RespState :=
  applyEvents { status := none, headers := hs, body := [] } evs

/-- UTF-8 bytes of a string, as naturals. -/
def strBytes (s : String) : List Nat :=
  s.toUTF8.toList.map (fun b => b.toNat)

/-- `json.Marshal` of the middleware package's `Response` value built by
`respondWithError` (fields in struct order, `Data` omitted when empty). -/
def jsonError (code : Nat) (message : String) : String :=
  "\x7b\"status\":" ++ toString code ++ ",\"message\":\"error\",\"error\":\"" ++
    message ++ "\"\x7d"

/-- `respondWithJSON`: set the content type, write the status, write the
payload bytes. -/
def respondWithJSON (code : Nat) (payload : String) : List WriteEvent :=
  [WriteEvent.setHeader "Content-Type" "application/json",
   WriteEvent.header code,
   WriteEvent.write (strBytes payload)]

/-- `respondWithError`: JSON error payload under the given status code. -/
def respondWithError (code : Nat) (message : String) : List WriteEvent :=
  respondWithJSON code (jsonError code message)

/-! ### Cache configuration and key derivation (`cache` package) -/

/-- `CacheConfig`, restricted to the fields the verified code paths read.
(`Strategy` and `InvalidateOn` are carried by the Go struct but never read
by `GetKey`/`ShouldCache`/the two patterns.) -/
structure CacheConfig where
  ttl : Nat
  keyPrefix : String
  ignoreParams : List String
  excludePaths : List String
deriving DecidableEq

/-- `url.Values.Del`: remove every entry for the given parameter name. -/
def Values.del (q : List (String × List String)) (key : String) :
    List (String × List String) :=
  q.filter (fun kv => kv.1 != key)

/-- The loop in `GetKey` removing each configured ignored parameter. -/
def dropIgnored (ignore : List String) (q : List (String × List String)) :
    List (String × List String) :=
  ignore.foldl (fun acc p => Values.del acc p) q

/-- Key order used by `url.Values.Encode` (Go sorts the map's keys). -/
def keyLE (a b : String × List String) : Prop := a.1 ≤ b.1

instance : DecidableRel keyLE := fun a b => inferInstanceAs (Decidable (a.1 ≤ b.1))

instance : IsTotal (String × List String) keyLE := ⟨fun a b => le_total a.1 b.1⟩

instance : IsTrans (String × List String) keyLE := ⟨fun _ _ _ h h' => le_trans h h'⟩

/-- `url.Values.Encode` sorts the parameter names; the association list is
sorted by key (a Go map has distinct keys, so the key order determines the
result). -/
def sortByKey (q : List (String × List String)) : List (String × List String) :=
  List.insertionSort keyLE q

/-- `url.Values.Encode`: parameters sorted by name, each value emitted as
`name=value`, joined with `&` (percent-escaping omitted, see header). -/
def encodeQuery (q : List (String × List String)) : String :=
  String.intercalate "&" ((sortByKey q).flatMap (fun kv => kv.2.map (fun v => kv.1 ++ "=" ++ v)))

/-- `RedisCache.GetKey`: `prefix:METHOD:path:encodedQuery` after dropping the
ignored parameters; keys longer than 200 bytes are replaced by
`prefix:hash:<digest>` of the full key, `hash` abstracting the SHA-256 hex
digest. -/
def GetKey (hash : String → String) (cfg : CacheConfig) (r : Request) : String :=
  let query := dropIgnored cfg.ignoreParams r.query
  let key := cfg.keyPrefix ++ ":" ++ r.method ++ ":" ++ r.path ++ ":" ++ encodeQuery query
  if 200 < key.length then cfg.keyPrefix ++ ":hash:" ++ hash key else key

/-- `strings.HasPrefix`, stated on the strings' character lists. -/
def hasPrefix (s pre : String) : Bool := pre.data.isPrefixOf s.data

/-- `RedisCache.ShouldCache`: only `GET` requests, not under an excluded path
prefix, and not carrying `Cache-Control: no-cache`. -/
def ShouldCache (cfg : CacheConfig) (r : Request) : Bool :=
  if r.method ≠ "GET" then false
  else if cfg.excludePaths.any (fun p => hasPrefix r.path p) then false
  else if headerGet r.headers "Cache-Control" = "no-cache" then false
  else true

/-! ### Cached responses, the store boundary, and response capture -/

/-- `CachedResponse`: status code, header map, raw body bytes. -/
structure CachedResponse where
  status : Nat
  headers : List (String × String)
  body : List Nat
deriving DecidableEq

/-- The Redis key-value store, as far as the verified paths observe it:
a map from key to the deserialized `CachedResponse` stored there.
(TTL expiry and serialization are invisible at this level: an entry is
either present and round-trips, or the `Store` call fails, which the
patterns take as a boolean parameter.) -/
abbrev Store := List (String × CachedResponse)

/-- `redis Get` + unmarshal (`RedisCache.Fetch`): the entry at the key, or
`none` (`redis.Nil`) when absent. -/
def storeFetch : Store → String → Option CachedResponse
  | [], _ => none
  | kv :: rest, k => if kv.1 = k then some kv.2 else storeFetch rest k

/-- `redis Set` (`RedisCache.Store` after marshalling): overwrite the key. -/
def storeSet (st : Store) (key : String) (v : CachedResponse) : Store :=
  (key, v) :: st.filter (fun kv => kv.1 != key)

/-- `CacheResponseWriter.status` after a handler trace: the struct's zero
value 0 until some `WriteHeader` runs; each `WriteHeader` overwrites it. -/
def capturedStatus (evs : List WriteEvent) : Nat :=
  evs.foldl (fun st ev => match ev with | .header code => code | _ => st) 0

/-- `CacheResponseWriter.body` after a handler trace: every `Write` is
mirrored into the buffer. -/
def capturedBody (evs : List WriteEvent) : List Nat :=
  evs.foldl (fun acc ev => match ev with | .write bytes => acc ++ bytes | _ => acc) []

/-- The underlying writer's header map (`w.Header()`) after a handler trace,
starting from the map `hs` the writer held when the pattern was entered.
Unlike the status, the map keeps mutating after `WriteHeader`. -/
def headerMapAfter (hs : List (String × String)) (evs : List WriteEvent) :
    List (String × String) :=
  evs.foldl (fun acc ev => match ev with | .setHeader k v => headerSet acc k v | _ => acc) hs

/-- Result of running a cache pattern on one request: the writer operations
the caller's writer receives, the store afterwards, whether the origin
handler (`next`) was invoked, and what was logged. -/
structure ApplyResult where
  events : List WriteEvent
  store : Store
  originInvoked : Bool
  log : List String
deriving DecidableEq

/-- `CacheAside.Apply`. `hash` abstracts the SHA-256 digest in `GetKey`,
`w0` is the real writer's header map on entry, and `storeOk` tells whether
the `Store` call (serialization plus Redis `Set`) succeeds. Uncacheable
requests pass straight through; a hit replays the stored headers, status and
body and skips the origin; a miss runs the origin through the capturing
writer and stores the captured entry, a store failure being only logged. -/
def CacheAside.Apply (hash : String → String) (cfg : CacheConfig) (next : Handler)
    (r : Request) (st : Store) (w0 : List (String × String)) (storeOk : Bool) :
    ApplyResult :=
  if ShouldCache cfg r = false then
    { events := next r, store := st, originInvoked := true, log := [] }
  else
    let key := GetKey hash cfg r
    match storeFetch st key with
    | some resp =>
      { events := resp.headers.map (fun kv => WriteEvent.setHeader kv.1 kv.2) ++
          [WriteEvent.header resp.status, WriteEvent.write resp.body],
        store := st, originInvoked := false, log := [] }
    | none =>
      let evs := next r
      let entry : CachedResponse :=
        { status := capturedStatus evs, headers := headerMapAfter w0 evs,
          body := capturedBody evs }
      if storeOk then
        { events := evs, store := storeSet st key entry, originInvoked := true, log := [] }
      else
        { events := evs, store := st, originInvoked := true,
          log := ["Cache storage error"] }

/-- `WriteThrough.Apply`. A non-`GET` request runs the origin through the
capturing writer and, when the captured status is exactly 200, stores the
captured entry under the key derived from that same (mutating) request; the
`Store` error value is discarded. `GET` requests delegate to Cache-Aside. -/
def WriteThrough.Apply (hash : String → String) (cfg : CacheConfig) (next : Handler)
    (r : Request) (st : Store) (w0 : List (String × String)) (storeOk : Bool) :
    ApplyResult :=
  if r.method ≠ "GET" then
    let key := GetKey hash cfg r
    let evs := next r
    if capturedStatus evs = 200 then
      if storeOk then
        { events := evs,
          store := storeSet st key
            { status := capturedStatus evs, headers := headerMapAfter w0 evs,
              body := capturedBody evs },
          originInvoked := true, log := [] }
      else
        { events := evs, store := st, originInvoked := true, log := [] }
    else
      { events := evs, store := st, originInvoked := true, log := [] }
  else
    CacheAside.Apply hash cfg next r st w0 storeOk

/-! ### Rate limiter (`middleware` package) -/

/-- The limiter registry (`RateLimiter.limiters`): remaining tokens per
client key. The Go code builds each limiter as
`rate.NewLimiter(rate.Every(time.Second), burst)`; the model takes the burst
as a parameter (the source fixes it to 10) and considers a window in which
no time passes, so no token is refilled and the limiter's float arithmetic
is exact on whole tokens. -/
abbrev RateLimiterState := List (String × Nat)

/-- Registry lookup. -/
def rlLookup : RateLimiterState → String → Option Nat
  | [], _ => none
  | kv :: rest, k => if kv.1 = k then some kv.2 else rlLookup rest k

/-- Registry update (map assignment). -/
def rlSet : RateLimiterState → String → Nat → RateLimiterState
  | [], k, v => [(k, v)]
  | kv :: rest, k, v => if kv.1 = k then (k, v) :: rest else kv :: rlSet rest k v

/-- `RateLimiter.getLimiter`: return the limiter for the key, lazily creating
it at full burst capacity on first use. -/
def getLimiter (burst : Nat) (rl : RateLimiterState) (key : String) :
    Nat × RateLimiterState :=
  match rlLookup rl key with
  | some tokens => (tokens, rl)
  | none => (burst, rlSet rl key burst)

/-- `WithRateLimit`: key by the remote address; `limiter.Allow()` consumes a
token when one is available, otherwise the request is rejected with a 429
JSON error and the chain terminates. Returns (writer operations, registry
afterwards, whether `next` ran). -/
def WithRateLimit (burst : Nat) (next : Handler) (r : Request)
    (rl : RateLimiterState) : List WriteEvent × RateLimiterState × Bool :=
  let lim := getLimiter burst rl r.remoteAddr
  if 0 < lim.1 then
    (next r, rlSet lim.2 r.remoteAddr (lim.1 - 1), true)
  else
    (respondWithError 429 "Rate limit exceeded", lim.2, false)

/-- The limiter registry after `n` successive requests `r` through
`WithRateLimit`, starting from the empty registry (all requests inside one
observation window, so no refill occurs). -/
def rlRun (burst : Nat) (next : Handler) (r : Request) : Nat → RateLimiterState
  | 0 => []
  | n + 1 => (WithRateLimit burst next r (rlRun burst next r n)).2.1

/-! ### Circuit breaker (`middleware` package) -/

/-- `CircuitBreaker`: configured threshold and reset timeout, current
failure counter and instant of the last recorded failure.
`NewCircuitBreaker` zero-initializes the counter and the timestamp. -/
structure CircuitBreaker where
  failureThreshold : Nat
  resetTimeout : Nat
  failures : Nat
  lastFailure : Nat
deriving DecidableEq

/-- `CircuitBreaker.isOpen` evaluated at instant `now`: when the counter has
reached the threshold, either the reset timeout has strictly elapsed since
the last failure — then the counter is cleared and the breaker reads closed —
or the breaker reads open. Returns (open?, breaker afterwards). -/
def CircuitBreaker.isOpen (cb : CircuitBreaker) (now : Nat) : Bool × CircuitBreaker :=
  if cb.failureThreshold ≤ cb.failures then
    if cb.resetTimeout < now - cb.lastFailure then
      (false, { cb with failures := 0 })
    else
      (true, cb)
  else
    (false, cb)

/-- `WithCircuitBreaker`: reject with a 503 JSON error when the breaker is
open, otherwise invoke the origin. Note that, as in the source, no path
records a failure into the breaker. Returns (writer operations, breaker
afterwards, whether `next` ran). -/
def WithCircuitBreaker (cb : CircuitBreaker) (next : Handler) (r : Request)
    (now : Nat) : List WriteEvent × CircuitBreaker × Bool :=
  let res := cb.isOpen now
  if res.1 then
    (respondWithError 503 "Service temporarily unavailable", res.2, false)
  else
    (next r, res.2, true)

/-! ### Middleware chain composer (`middleware` package) -/

/-- `Middleware`: a handler transformer. -/
abbrev Middleware := Handler → Handler

/-- `Chain`: the Go loop `last := final; for i := len-1 downto 0 { last =
middlewares[i](last) }; last(w, r)` is exactly a right fold. -/
def Chain (middlewares : List Middleware) : Middleware :=
  fun final => middlewares.foldr (fun m last => m last) final

/-- An interceptor in the shape the spec's chain contract assumes: on each
request it either terminates the request with the writer operations it has
produced (never invoking the remainder), or forwards a — possibly
transformed — request to the remainder exactly once. -/
abbrev Interceptor := Request → List WriteEvent ⊕ Request

/-- The middleware denoted by an interceptor. -/
def asMiddleware (ic : Interceptor) : Middleware :=
  fun next r =>
    match ic r with
    | Sum.inl evs => evs
    | Sum.inr rNext => next rNext

/-- How a chain execution ended: the terminal handler ran (on the finally
transformed request), or interceptor `idx` short-circuited with `evs`. -/
inductive ChainOutcome where
  | reachedFinal (rFinal : Request)
  | shortCircuit (idx : Nat) (evs : List WriteEvent)
deriving DecidableEq

/-- Instrumented run of a chain of interceptors starting at index `i`:
returns the writer operations produced, the indices of the interceptors
invoked in invocation order, and the outcome. -/
def chainRun : List Interceptor → Handler → Request → Nat →
    List WriteEvent × List Nat × ChainOutcome
  | [], final, r, _ => (final r, [], ChainOutcome.reachedFinal r)
  | ic :: rest, final, r, i =>
    match ic r with
    | Sum.inl evs => (evs, [i], ChainOutcome.shortCircuit i evs)
    | Sum.inr rNext =>
      let res := chainRun rest final rNext (i + 1)
      (res.1, i :: res.2.1, res.2.2)

/-! ## Theorems -/

/-! ### Helper lemmas -/

/-- Assigning an absent key appends it. -/
theorem headerSet_of_not_mem (acc : List (String × String)) (k v : String)
    (h : k ∉ acc.map Prod.fst) : headerSet acc k v = acc ++ [(k, v)] := by
  induction acc with
  | nil => rfl
  | cons kv rest ih =>
    simp only [List.map_cons, List.mem_cons] at h
    push_neg at h
    simp [headerSet, Ne.symm h.1, ih h.2]

/-- Folding assignments of pairwise-distinct, fresh keys into a header map
appends them in order. -/
theorem foldl_headerSet_append :
    ∀ (hs acc : List (String × String)),
      (hs.map Prod.fst).Nodup →
      (∀ k, k ∈ hs.map Prod.fst → k ∉ acc.map Prod.fst) →
      hs.foldl (fun a kv => headerSet a kv.1 kv.2) acc = acc ++ hs := by
  intro hs
  induction hs with
  | nil => intro acc _ _; simp
  | cons kv rest ih =>
    intro acc hnd hdisj
    simp only [List.map_cons, List.nodup_cons] at hnd
    have hk : kv.1 ∉ acc.map Prod.fst := hdisj kv.1 (by simp)
    have step : headerSet acc kv.1 kv.2 = acc ++ [(kv.1, kv.2)] :=
      headerSet_of_not_mem acc kv.1 kv.2 hk
    have hdisj' : ∀ k, k ∈ rest.map Prod.fst → k ∉ (acc ++ [(kv.1, kv.2)]).map Prod.fst := by
      intro k hkmem
      simp only [List.map_append, List.mem_append, List.map_cons, List.map_nil,
        List.mem_singleton]
      push_neg
      refine ⟨hdisj k (by simp [hkmem]), ?_⟩
      intro hEq
      exact hnd.1 (hEq ▸ hkmem)
    calc (kv :: rest).foldl (fun a p => headerSet a p.1 p.2) acc
        = rest.foldl (fun a p => headerSet a p.1 p.2) (acc ++ [(kv.1, kv.2)]) := by
          simp [step]
      _ = acc ++ [(kv.1, kv.2)] ++ rest := ih (acc ++ [(kv.1, kv.2)]) hnd.2 hdisj'
      _ = acc ++ kv :: rest := by simp

/-- The status is untouched by a run of header-map assignments, which land in
the map while no status has been written. -/
theorem applyEvents_setHeaders (hs : List (String × String)) (h0 : List (String × String)) :
    applyEvents { status := none, headers := h0, body := [] }
        (hs.map (fun kv => WriteEvent.setHeader kv.1 kv.2)) =
      { status := none,
        headers := hs.foldl (fun a kv => headerSet a kv.1 kv.2) h0, body := [] } := by
  induction hs generalizing h0 with
  | nil => rfl
  | cons kv rest ih =>
    simp [applyEvents, applyEvent] at ih ⊢
    exact ih (headerSet h0 kv.1 kv.2)

/-- Delivering a replayed cache entry: headers folded into the writer's map,
the stored status, and exactly the stored body. -/
theorem deliver_replay (entry : CachedResponse) (h0 : List (String × String)) :
    applyEvents { status := none, headers := h0, body := [] }
        (entry.headers.map (fun kv => WriteEvent.setHeader kv.1 kv.2) ++
          [WriteEvent.header entry.status, WriteEvent.write entry.body]) =
      { status := some entry.status,
        headers := entry.headers.foldl (fun a kv => headerSet a kv.1 kv.2) h0,
        body := entry.body } := by
  rw [applyEvents, List.foldl_append]
  rw [show List.foldl applyEvent { status := none, headers := h0, body := [] }
        (entry.headers.map (fun kv => WriteEvent.setHeader kv.1 kv.2)) =
      applyEvents { status := none, headers := h0, body := [] }
        (entry.headers.map (fun kv => WriteEvent.setHeader kv.1 kv.2)) from rfl]
  rw [applyEvents_setHeaders]
  simp [applyEvent]

/-- Fetching the key just stored returns the stored entry. -/
theorem storeFetch_storeSet_same (st : Store) (key : String) (v : CachedResponse) :
    storeFetch (storeSet st key v) key = some v := by
  simp [storeSet, storeFetch]

/-! ### C4 -/

/-- C4: `ShouldCache` returns `true` only for the idempotent read method
`GET`; it returns `false` for every request under a configured excluded path
prefix and for every request carrying `Cache-Control: no-cache`, whatever
the other request fields are. -/
theorem c4_shouldCache_restrictions (cfg : CacheConfig) (r : Request) :
    (ShouldCache cfg r = true → r.method = "GET") ∧
    (∀ p ∈ cfg.excludePaths, hasPrefix r.path p = true → ShouldCache cfg r = false) ∧
    (headerGet r.headers "Cache-Control" = "no-cache" → ShouldCache cfg r = false) := by
  refine ⟨?_, ?_, ?_⟩
  · intro h
    by_contra hm
    simp [ShouldCache, hm] at h
  · intro p hp hsw
    by_cases hm : r.method = "GET"
    · have hany : cfg.excludePaths.any (fun q => hasPrefix r.path q) = true :=
        List.any_eq_true.mpr ⟨p, hp, hsw⟩
      simp [ShouldCache, hm, hany]
    · simp [ShouldCache, hm]
  · intro hcc
    by_cases hm : r.method = "GET"
    · by_cases hany : cfg.excludePaths.any (fun q => hasPrefix r.path q) = true
      · simp [ShouldCache, hm, hany]
      · simp [ShouldCache, hm, hany, hcc]
    · simp [ShouldCache, hm]

/-- Witness for C4 at a concrete configuration and request. -/
theorem c4_shouldCache_restrictions_witness :
    (ShouldCache ⟨1, "p", [], ["/admin"]⟩ ⟨"GET", "/admin/users", [], [], "a"⟩ = false) ∧
    (ShouldCache ⟨1, "p", [], []⟩
      ⟨"GET", "/x", [], [("Cache-Control", "no-cache")], "a"⟩ = false) := by
  constructor
  · exact (c4_shouldCache_restrictions ⟨1, "p", [], ["/admin"]⟩
      ⟨"GET", "/admin/users", [], [], "a"⟩).2.1 "/admin" (by decide) (by decide)
  · exact (c4_shouldCache_restrictions ⟨1, "p", [], []⟩
      ⟨"GET", "/x", [], [("Cache-Control", "no-cache")], "a"⟩).2.2 (by decide)

/-! ### C7 -/

/-- C7: the breaker reads open exactly when the failure counter has reached
the threshold and no more than the reset timeout has elapsed since the last
recorded failure; on the first check after the timeout has elapsed the
counter is cleared and the breaker reads closed again. -/
theorem c7_breaker_open_iff (cb : CircuitBreaker) (now : Nat) :
    ((cb.isOpen now).1 = true ↔
      cb.failureThreshold ≤ cb.failures ∧ now - cb.lastFailure ≤ cb.resetTimeout) ∧
    (cb.failureThreshold ≤ cb.failures → cb.resetTimeout < now - cb.lastFailure →
      (cb.isOpen now).1 = false ∧ ((cb.isOpen now).2).failures = 0) := by
  by_cases h1 : cb.failureThreshold ≤ cb.failures <;>
    by_cases h2 : cb.resetTimeout < now - cb.lastFailure <;>
      simp [CircuitBreaker.isOpen, h1, h2] <;> omega

/-- Witness for C7: a breaker past its threshold blocks within the timeout
and, checked after the timeout, clears its counter and allows again. -/
theorem c7_breaker_open_iff_witness :
    ((CircuitBreaker.isOpen ⟨3, 100, 3, 50⟩ 120).1 = true) ∧
    ((CircuitBreaker.isOpen ⟨3, 100, 3, 50⟩ 200).1 = false ∧
      ((CircuitBreaker.isOpen ⟨3, 100, 3, 50⟩ 200).2).failures = 0) := by
  constructor
  · exact (c7_breaker_open_iff ⟨3, 100, 3, 50⟩ 120).1.mpr (by decide)
  · exact (c7_breaker_open_iff ⟨3, 100, 3, 50⟩ 200).2 (by decide) (by decide)

/-! ### C6 -/

/-- C6: under both strategies, a failing cache `Store` changes neither the
writer operations the caller receives nor whether the origin ran, relative
to a successful store: the failure is at most logged, never surfaced. -/
theorem c6_store_failure_invisible (hash : String → String) (cfg : CacheConfig)
    (next : Handler) (r : Request) (st : Store) (w0 : List (String × String)) :
    ((CacheAside.Apply hash cfg next r st w0 false).events =
        (CacheAside.Apply hash cfg next r st w0 true).events ∧
      (CacheAside.Apply hash cfg next r st w0 false).originInvoked =
        (CacheAside.Apply hash cfg next r st w0 true).originInvoked) ∧
    ((WriteThrough.Apply hash cfg next r st w0 false).events =
        (WriteThrough.Apply hash cfg next r st w0 true).events ∧
      (WriteThrough.Apply hash cfg next r st w0 false).originInvoked =
        (WriteThrough.Apply hash cfg next r st w0 true).originInvoked) := by
  have hca : ∀ st' : Store,
      (CacheAside.Apply hash cfg next r st' w0 false).events =
        (CacheAside.Apply hash cfg next r st' w0 true).events ∧
      (CacheAside.Apply hash cfg next r st' w0 false).originInvoked =
        (CacheAside.Apply hash cfg next r st' w0 true).originInvoked := by
    intro st'
    unfold CacheAside.Apply
    by_cases hc : ShouldCache cfg r = false
    · simp [hc]
    · cases hfetch : storeFetch st' (GetKey hash cfg r) <;> simp [hc, hfetch]
  refine ⟨hca st, ?_⟩
  unfold WriteThrough.Apply
  by_cases hm : r.method ≠ "GET"
  · by_cases hs : capturedStatus (next r) = 200 <;> simp [hm, hs]
  · simpa [hm] using hca st

/-! ### C3 -/

/-- Lists sorted by key that are permutations of each other and have
pairwise-distinct keys (the invariant of a Go map) are equal. -/
theorem sorted_key_nodup_eq {l₁ l₂ : List (String × List String)}
    (hperm : l₁.Perm l₂) (hs₁ : l₁.Sorted keyLE) (hs₂ : l₂.Sorted keyLE)
    (hn : (l₁.map Prod.fst).Nodup) : l₁ = l₂ := by
  haveI : IsAntisymm (String × List String) (fun a b => a.1 < b.1) :=
    ⟨fun a b h h' => absurd h' (lt_asymm h)⟩
  have hn₂ : (l₂.map Prod.fst).Nodup := ((hperm.map Prod.fst).nodup_iff).mp hn
  have hne₁ : l₁.Pairwise (fun a b => a.1 ≠ b.1) := List.pairwise_map.mp hn
  have hne₂ : l₂.Pairwise (fun a b => a.1 ≠ b.1) := List.pairwise_map.mp hn₂
  have hp₁ : l₁.Pairwise keyLE := hs₁
  have hp₂ : l₂.Pairwise keyLE := hs₂
  have hlt₁ : l₁.Pairwise (fun a b => a.1 < b.1) :=
    (hp₁.and hne₁).imp (fun h => lt_of_le_of_ne h.1 h.2)
  have hlt₂ : l₂.Pairwise (fun a b => a.1 < b.1) :=
    (hp₂.and hne₂).imp (fun h => lt_of_le_of_ne h.1 h.2)
  exact List.eq_of_perm_of_sorted hperm hlt₁ hlt₂

/-- C3: two requests with the same method, the same path, and — once the
configured ignored parameters are removed — the same query map (the same
name/values entries in any order, names distinct as in a Go map) derive the
same cache key, whatever the values of the ignored parameters were. -/
theorem c3_getKey_stable (hash : String → String) (cfg : CacheConfig)
    (r1 r2 : Request) (hm : r1.method = r2.method) (hp : r1.path = r2.path)
    (hq : (dropIgnored cfg.ignoreParams r1.query).Perm
      (dropIgnored cfg.ignoreParams r2.query))
    (hn : ((dropIgnored cfg.ignoreParams r1.query).map Prod.fst).Nodup) :
    GetKey hash cfg r1 = GetKey hash cfg r2 := by
  have hsorted : sortByKey (dropIgnored cfg.ignoreParams r1.query) =
      sortByKey (dropIgnored cfg.ignoreParams r2.query) := by
    unfold sortByKey
    have hper : (List.insertionSort keyLE (dropIgnored cfg.ignoreParams r1.query)).Perm
        (List.insertionSort keyLE (dropIgnored cfg.ignoreParams r2.query)) :=
      ((List.perm_insertionSort keyLE _).trans hq).trans
        (List.perm_insertionSort keyLE _).symm
    have hnod : ((List.insertionSort keyLE
        (dropIgnored cfg.ignoreParams r1.query)).map Prod.fst).Nodup :=
      (((List.perm_insertionSort keyLE _).map Prod.fst).nodup_iff).mpr hn
    exact sorted_key_nodup_eq hper (List.sorted_insertionSort keyLE _)
      (List.sorted_insertionSort keyLE _) hnod
  have henc : encodeQuery (dropIgnored cfg.ignoreParams r1.query) =
      encodeQuery (dropIgnored cfg.ignoreParams r2.query) := by
    unfold encodeQuery
    rw [hsorted]
  simp only [GetKey]
  rw [hm, hp, henc]

/-- Witness for C3: two concrete requests whose queries differ in entry
order and in the value of the ignored `token` parameter get the same key. -/
theorem c3_getKey_stable_witness :
    GetKey id ⟨1, "p", ["token"], []⟩
        ⟨"GET", "/x", [("b", ["2"]), ("a", ["1"]), ("token", ["x"])], [], "a"⟩ =
      GetKey id ⟨1, "p", ["token"], []⟩
        ⟨"GET", "/x", [("a", ["1"]), ("token", ["y"]), ("b", ["2"])], [], "a"⟩ :=
  c3_getKey_stable id ⟨1, "p", ["token"], []⟩
    ⟨"GET", "/x", [("b", ["2"]), ("a", ["1"]), ("token", ["x"])], [], "a"⟩
    ⟨"GET", "/x", [("a", ["1"]), ("token", ["y"]), ("b", ["2"])], [], "a"⟩
    rfl rfl (by decide) (by decide)

/-! ### C5 -/

/-- C5: under Cache-Aside, for a cacheable request: on a hit the stored
status, headers and body are delivered to the caller exactly and the origin
is not invoked; on a miss the origin is invoked, its writer operations reach
the caller unchanged, and (when the store call succeeds) the captured entry
is stored under the derived key before returning. -/
theorem c5_cacheAside_hit_replays_miss_stores (hash : String → String)
    (cfg : CacheConfig) (next : Handler) (r : Request) (st : Store)
    (w0 : List (String × String)) (storeOk : Bool)
    (hc : ShouldCache cfg r = true) :
    (∀ entry : CachedResponse,
      storeFetch st (GetKey hash cfg r) = some entry →
      (entry.headers.map Prod.fst).Nodup →
      (CacheAside.Apply hash cfg next r st w0 storeOk).originInvoked = false ∧
      deliver [] (CacheAside.Apply hash cfg next r st w0 storeOk).events =
        { status := some entry.status, headers := entry.headers, body := entry.body }) ∧
    (storeFetch st (GetKey hash cfg r) = none →
      (CacheAside.Apply hash cfg next r st w0 storeOk).originInvoked = true ∧
      (CacheAside.Apply hash cfg next r st w0 storeOk).events = next r ∧
      (storeOk = true →
        (CacheAside.Apply hash cfg next r st w0 storeOk).store =
          storeSet st (GetKey hash cfg r)
            { status := capturedStatus (next r), headers := headerMapAfter w0 (next r),
              body := capturedBody (next r) })) := by
  constructor
  · intro entry hfetch hnodup
    have hfold : entry.headers.foldl (fun a kv => headerSet a kv.1 kv.2) [] =
        entry.headers := by
      have h := foldl_headerSet_append entry.headers [] hnodup (by intro k _; simp)
      simpa using h
    constructor
    · simp [CacheAside.Apply, hc, hfetch]
    · simp only [CacheAside.Apply, hc, hfetch]
      unfold deliver
      norm_num
      rw [deliver_replay entry [], hfold]
  · intro hfetch
    refine ⟨?_, ?_, ?_⟩
    · cases storeOk <;> simp [CacheAside.Apply, hc, hfetch]
    · cases storeOk <;> simp [CacheAside.Apply, hc, hfetch]
    · intro hso
      simp [CacheAside.Apply, hc, hfetch, hso]

/-- Witness for C5: a hit on a one-entry store replays that entry and skips
the origin; a miss on the empty store runs the origin and stores the
captured entry. -/
theorem c5_cacheAside_hit_replays_miss_stores_witness :
    ((CacheAside.Apply id ⟨1, "p", [], []⟩
        (fun _ => [WriteEvent.header 200, WriteEvent.write [7]])
        ⟨"GET", "/x", [], [], "a"⟩
        (storeSet [] (GetKey id ⟨1, "p", [], []⟩ ⟨"GET", "/x", [], [], "a"⟩)
          ⟨201, [("X-T", "1")], [9]⟩) [] true).originInvoked = false ∧
      deliver [] (CacheAside.Apply id ⟨1, "p", [], []⟩
        (fun _ => [WriteEvent.header 200, WriteEvent.write [7]])
        ⟨"GET", "/x", [], [], "a"⟩
        (storeSet [] (GetKey id ⟨1, "p", [], []⟩ ⟨"GET", "/x", [], [], "a"⟩)
          ⟨201, [("X-T", "1")], [9]⟩) [] true).events =
        { status := some 201, headers := [("X-T", "1")], body := [9] }) ∧
    ((CacheAside.Apply id ⟨1, "p", [], []⟩
        (fun _ => [WriteEvent.header 200, WriteEvent.write [7]])
        ⟨"GET", "/x", [], [], "a"⟩ [] [] true).originInvoked = true ∧
      (CacheAside.Apply id ⟨1, "p", [], []⟩
        (fun _ => [WriteEvent.header 200, WriteEvent.write [7]])
        ⟨"GET", "/x", [], [], "a"⟩ [] [] true).events =
        [WriteEvent.header 200, WriteEvent.write [7]] ∧
      (CacheAside.Apply id ⟨1, "p", [], []⟩
        (fun _ => [WriteEvent.header 200, WriteEvent.write [7]])
        ⟨"GET", "/x", [], [], "a"⟩ [] [] true).store =
        storeSet [] (GetKey id ⟨1, "p", [], []⟩ ⟨"GET", "/x", [], [], "a"⟩)
          { status := 200, headers := [], body := [7] }) := by
  constructor
  · exact (c5_cacheAside_hit_replays_miss_stores id ⟨1, "p", [], []⟩
      (fun _ => [WriteEvent.header 200, WriteEvent.write [7]])
      ⟨"GET", "/x", [], [], "a"⟩
      (storeSet [] (GetKey id ⟨1, "p", [], []⟩ ⟨"GET", "/x", [], [], "a"⟩)
        ⟨201, [("X-T", "1")], [9]⟩) [] true (by decide)).1
      ⟨201, [("X-T", "1")], [9]⟩ (storeFetch_storeSet_same _ _ _) (by decide)
  · have h := (c5_cacheAside_hit_replays_miss_stores id ⟨1, "p", [], []⟩
      (fun _ => [WriteEvent.header 200, WriteEvent.write [7]])
      ⟨"GET", "/x", [], [], "a"⟩ [] [] true (by decide)).2 rfl
    exact ⟨h.1, h.2.1, h.2.2 rfl⟩

/-! ### C10 -/

/-- C10: on a Cache-Aside miss whose origin handler writes a body but never
calls `WriteHeader`, the stored entry captures the wrapper's zero-value
status 0 while the real caller receives the implicit 200; a subsequent hit
then replays status 0 instead of 200, and skips the origin. -/
theorem c10_zero_status_captured (hash : String → String) (cfg : CacheConfig)
    (r : Request) (w0 : List (String × String)) (bs : List Nat)
    (hc : ShouldCache cfg r = true) :
    storeFetch (CacheAside.Apply hash cfg (fun _ => [WriteEvent.write bs]) r
        [] w0 true).store (GetKey hash cfg r) =
      some { status := 0, headers := w0, body := bs } ∧
    (applyEvents { status := none, headers := w0, body := [] }
      (CacheAside.Apply hash cfg (fun _ => [WriteEvent.write bs]) r
        [] w0 true).events).status = some 200 ∧
    (CacheAside.Apply hash cfg (fun _ => [WriteEvent.write bs]) r
      (CacheAside.Apply hash cfg (fun _ => [WriteEvent.write bs]) r
        [] w0 true).store w0 true).originInvoked = false ∧
    (applyEvents { status := none, headers := w0, body := [] }
      (CacheAside.Apply hash cfg (fun _ => [WriteEvent.write bs]) r
        (CacheAside.Apply hash cfg (fun _ => [WriteEvent.write bs]) r
          [] w0 true).store w0 true).events).status = some 0 := by
  have happ1 : CacheAside.Apply hash cfg (fun _ => [WriteEvent.write bs]) r [] w0 true =
      { events := [WriteEvent.write bs],
        store := storeSet [] (GetKey hash cfg r) { status := 0, headers := w0, body := bs },
        originInvoked := true, log := [] } := by
    simp [CacheAside.Apply, hc, storeFetch, capturedStatus, capturedBody, headerMapAfter]
  have happ2 : CacheAside.Apply hash cfg (fun _ => [WriteEvent.write bs]) r
      (storeSet [] (GetKey hash cfg r) { status := 0, headers := w0, body := bs }) w0 true =
      { events := w0.map (fun kv => WriteEvent.setHeader kv.1 kv.2) ++
          [WriteEvent.header 0, WriteEvent.write bs],
        store := storeSet [] (GetKey hash cfg r) { status := 0, headers := w0, body := bs },
        originInvoked := false, log := [] } := by
    simp [CacheAside.Apply, hc, storeFetch_storeSet_same]
  refine ⟨?_, ?_, ?_, ?_⟩
  · rw [happ1]
    exact storeFetch_storeSet_same _ _ _
  · rw [happ1]
    simp [applyEvents, applyEvent]
  · rw [happ1, happ2]
  · rw [happ1]
    simp only []
    rw [show (CacheAside.Apply hash cfg (fun _ => [WriteEvent.write bs]) r
      ({ events := [WriteEvent.write bs],
         store := storeSet [] (GetKey hash cfg r) { status := 0, headers := w0, body := bs },
         originInvoked := true, log := [] } : ApplyResult).store w0 true) =
      CacheAside.Apply hash cfg (fun _ => [WriteEvent.write bs]) r
        (storeSet [] (GetKey hash cfg r) { status := 0, headers := w0, body := bs })
        w0 true from rfl, happ2]
    simpa using congrArg RespState.status
      (deliver_replay { status := 0, headers := w0, body := bs } w0)

/-- Witness for C10 at a concrete request, handler and body. -/
theorem c10_zero_status_captured_witness :
    storeFetch (CacheAside.Apply id ⟨1, "p", [], []⟩ (fun _ => [WriteEvent.write [5]])
        ⟨"GET", "/x", [], [], "a"⟩ [] [] true).store
        (GetKey id ⟨1, "p", [], []⟩ ⟨"GET", "/x", [], [], "a"⟩) =
      some { status := 0, headers := [], body := [5] } ∧
    (applyEvents { status := none, headers := [], body := [] }
      (CacheAside.Apply id ⟨1, "p", [], []⟩ (fun _ => [WriteEvent.write [5]])
        ⟨"GET", "/x", [], [], "a"⟩ [] [] true).events).status = some 200 ∧
    (CacheAside.Apply id ⟨1, "p", [], []⟩ (fun _ => [WriteEvent.write [5]])
      ⟨"GET", "/x", [], [], "a"⟩
      (CacheAside.Apply id ⟨1, "p", [], []⟩ (fun _ => [WriteEvent.write [5]])
        ⟨"GET", "/x", [], [], "a"⟩ [] [] true).store [] true).originInvoked = false ∧
    (applyEvents { status := none, headers := [], body := [] }
      (CacheAside.Apply id ⟨1, "p", [], []⟩ (fun _ => [WriteEvent.write [5]])
        ⟨"GET", "/x", [], [], "a"⟩
        (CacheAside.Apply id ⟨1, "p", [], []⟩ (fun _ => [WriteEvent.write [5]])
          ⟨"GET", "/x", [], [], "a"⟩ [] [] true).store [] true).events).status = some 0 :=
  c10_zero_status_captured id ⟨1, "p", [], []⟩ ⟨"GET", "/x", [], [], "a"⟩ [] [5] (by decide)

/-! ### C8 -/

/-- The composed `Chain` computes exactly what the instrumented run
computes, for any start index of the instrumentation. -/
theorem chainRun_chain : ∀ (ics : List Interceptor) (final : Handler) (r : Request) (i : Nat),
    Chain (ics.map asMiddleware) final r = (chainRun ics final r i).1 := by
  intro ics
  induction ics with
  | nil => intro final r i; rfl
  | cons ic rest ih =>
    intro final r i
    cases hic : ic r with
    | inl evs => simp [Chain, asMiddleware, chainRun, hic]
    | inr rNext =>
      have hstep : Chain ((ic :: rest).map asMiddleware) final r =
          Chain (rest.map asMiddleware) final rNext := by
        simp [Chain, asMiddleware, hic]
      rw [hstep, ih final rNext (i + 1)]
      simp [chainRun, hic]

/-- The invocation trace is the contiguous index range starting at the
instrumentation's start index. -/
theorem chainRun_trace_range : ∀ (ics : List Interceptor) (final : Handler)
    (r : Request) (i : Nat),
    (chainRun ics final r i).2.1 =
      List.range' i (chainRun ics final r i).2.1.length := by
  intro ics
  induction ics with
  | nil => intro final r i; rfl
  | cons ic rest ih =>
    intro final r i
    cases hic : ic r with
    | inl evs => simp [chainRun, hic, List.range'_succ]
    | inr rNext =>
      simp only [chainRun, hic]
      rw [List.length_cons, List.range'_succ]
      exact congrArg (i :: ·) (ih final rNext (i + 1))

/-- No more interceptors are invoked than the chain holds. -/
theorem chainRun_trace_length_le : ∀ (ics : List Interceptor) (final : Handler)
    (r : Request) (i : Nat),
    (chainRun ics final r i).2.1.length ≤ ics.length := by
  intro ics
  induction ics with
  | nil => intro final r i; simp [chainRun]
  | cons ic rest ih =>
    intro final r i
    cases hic : ic r with
    | inl evs => simp [chainRun, hic]
    | inr rNext =>
      simp only [chainRun, hic, List.length_cons]
      exact Nat.succ_le_succ (ih final rNext (i + 1))

/-- A short-circuit at index `j` means the produced operations are exactly
the short-circuiting interceptor's, and nothing after it was invoked. -/
theorem chainRun_shortCircuit : ∀ (ics : List Interceptor) (final : Handler)
    (r : Request) (i j : Nat) (evs : List WriteEvent),
    (chainRun ics final r i).2.2 = ChainOutcome.shortCircuit j evs →
    (chainRun ics final r i).1 = evs ∧
    (chainRun ics final r i).2.1.length + i = j + 1 := by
  intro ics
  induction ics with
  | nil => intro final r i j evs h; exact absurd h (by simp [chainRun])
  | cons ic rest ih =>
    intro final r i j evs h
    cases hic : ic r with
    | inl evs' =>
      simp only [chainRun, hic] at h ⊢
      cases h
      simp [Nat.add_comm]
    | inr rNext =>
      simp only [chainRun, hic] at h ⊢
      have hr := ih final rNext (i + 1) j evs h
      refine ⟨hr.1, ?_⟩
      simp only [List.length_cons]
      omega

/-- C8: for every interceptor list and terminal handler, the composed
`Chain` behaves as the instrumented run, whose trace is the contiguous
prefix `0, 1, …` of construction indices (stable construction order, each
interceptor at most once); an interceptor that short-circuits terminates
the request with exactly the operations it wrote, nothing after it
running. -/
theorem c8_chain_order_and_termination (ics : List Interceptor) (final : Handler)
    (r : Request) :
    Chain (ics.map asMiddleware) final r = (chainRun ics final r 0).1 ∧
    (chainRun ics final r 0).2.1 =
      List.range ((chainRun ics final r 0).2.1.length) ∧
    (chainRun ics final r 0).2.1.length ≤ ics.length ∧
    (chainRun ics final r 0).2.1.Nodup ∧
    (∀ j evs, (chainRun ics final r 0).2.2 = ChainOutcome.shortCircuit j evs →
      (chainRun ics final r 0).1 = evs ∧
      (chainRun ics final r 0).2.1.length = j + 1) := by
  refine ⟨chainRun_chain ics final r 0, ?_, chainRun_trace_length_le ics final r 0, ?_, ?_⟩
  · rw [List.range_eq_range']
    exact chainRun_trace_range ics final r 0
  · rw [chainRun_trace_range ics final r 0]
    exact List.nodup_range' _ _
  · intro j evs h
    have hr := chainRun_shortCircuit ics final r 0 j evs h
    exact ⟨hr.1, by omega⟩

/-- Witness for C8: a pass-through interceptor followed by a
short-circuiting one and one that would fail the request; only the first
two run, in order, and the chain returns the short-circuit response. -/
theorem c8_chain_order_and_termination_witness :
    Chain ([fun r => Sum.inr r,
            fun _ => Sum.inl [WriteEvent.header 403],
            fun _ => Sum.inl [WriteEvent.header 500]].map asMiddleware)
        (fun _ => [WriteEvent.header 200]) ⟨"GET", "/x", [], [], "a"⟩ =
      (chainRun [fun r => Sum.inr r,
            fun _ => Sum.inl [WriteEvent.header 403],
            fun _ => Sum.inl [WriteEvent.header 500]]
        (fun _ => [WriteEvent.header 200]) ⟨"GET", "/x", [], [], "a"⟩ 0).1 ∧
    (chainRun [fun r => Sum.inr r,
          fun _ => Sum.inl [WriteEvent.header 403],
          fun _ => Sum.inl [WriteEvent.header 500]]
      (fun _ => [WriteEvent.header 200]) ⟨"GET", "/x", [], [], "a"⟩ 0).1 =
      [WriteEvent.header 403] ∧
    (chainRun [fun r => Sum.inr r,
          fun _ => Sum.inl [WriteEvent.header 403],
          fun _ => Sum.inl [WriteEvent.header 500]]
      (fun _ => [WriteEvent.header 200]) ⟨"GET", "/x", [], [], "a"⟩ 0).2.1.length = 2 := by
  have h := c8_chain_order_and_termination
    [fun r => Sum.inr r,
     fun _ => Sum.inl [WriteEvent.header 403],
     fun _ => Sum.inl [WriteEvent.header 500]]
    (fun _ => [WriteEvent.header 200]) ⟨"GET", "/x", [], [], "a"⟩
  have hsc := h.2.2.2.2 1 [WriteEvent.header 403] rfl
  exact ⟨h.1, hsc.1, hsc.2⟩

/-! ### C9 -/

/-- The registry after `i ≤ burst` identical requests from one client:
absent before the first request, then holding `burst - i` tokens. -/
theorem rlRun_state (burst : Nat) (next : Handler) (r : Request) :
    ∀ i, i ≤ burst → rlRun burst next r i =
      if i = 0 then [] else [(r.remoteAddr, burst - i)] := by
  intro i
  induction i with
  | zero => intro _; rfl
  | succ n ih =>
    intro hle
    have hn : n ≤ burst := Nat.le_of_succ_le hle
    by_cases h0 : n = 0
    · subst h0
      have hpos : 0 < burst := hle
      simp [rlRun, ih hn, WithRateLimit, getLimiter, rlLookup, rlSet, hpos]
    · have hlt : n < burst := Nat.lt_of_succ_le hle
      have hpos : 0 < burst - n := by omega
      have hsub : burst - n - 1 = burst - (n + 1) := by omega
      simp [rlRun, ih hn, h0, WithRateLimit, getLimiter, rlLookup, rlSet, hpos, hsub]

/-- C9: from a fresh registry, the first `burst` requests of one client are
forwarded to the next handler, and the `(burst+1)`-th is rejected with the
429 rate-limit response without invoking the next handler, terminating the
chain. -/
theorem c9_rate_limit_burst (burst : Nat) (next : Handler) (r : Request) :
    (∀ i, i < burst →
      (WithRateLimit burst next r (rlRun burst next r i)).1 = next r ∧
      (WithRateLimit burst next r (rlRun burst next r i)).2.2 = true) ∧
    ((WithRateLimit burst next r (rlRun burst next r burst)).1 =
        respondWithError 429 "Rate limit exceeded" ∧
      (WithRateLimit burst next r (rlRun burst next r burst)).2.2 = false ∧
      (deliver [] (WithRateLimit burst next r (rlRun burst next r burst)).1).status =
        some 429) := by
  constructor
  · intro i hi
    rw [rlRun_state burst next r i (Nat.le_of_lt hi)]
    by_cases h0 : i = 0
    · have hpos : 0 < burst := by omega
      simp [h0, WithRateLimit, getLimiter, rlLookup, hpos]
    · have hpos : 0 < burst - i := by omega
      simp [h0, WithRateLimit, getLimiter, rlLookup, hpos]
  · rw [rlRun_state burst next r burst (Nat.le_refl burst)]
    by_cases h0 : burst = 0
    · simp [h0, WithRateLimit, getLimiter, rlLookup, deliver, applyEvents,
        respondWithError, respondWithJSON, applyEvent]
    · simp [h0, WithRateLimit, getLimiter, rlLookup, Nat.sub_self, deliver,
        applyEvents, respondWithError, respondWithJSON, applyEvent]

/-- Witness for C9 with burst capacity 2: requests 1 and 2 are forwarded,
request 3 is rejected with status 429 and the origin is not invoked. -/
theorem c9_rate_limit_burst_witness :
    ((WithRateLimit 2 (fun _ => [WriteEvent.header 200])
        ⟨"GET", "/x", [], [], "1.2.3.4"⟩
        (rlRun 2 (fun _ => [WriteEvent.header 200]) ⟨"GET", "/x", [], [], "1.2.3.4"⟩ 0)).2.2 =
      true) ∧
    ((WithRateLimit 2 (fun _ => [WriteEvent.header 200])
        ⟨"GET", "/x", [], [], "1.2.3.4"⟩
        (rlRun 2 (fun _ => [WriteEvent.header 200]) ⟨"GET", "/x", [], [], "1.2.3.4"⟩ 1)).2.2 =
      true) ∧
    ((WithRateLimit 2 (fun _ => [WriteEvent.header 200])
        ⟨"GET", "/x", [], [], "1.2.3.4"⟩
        (rlRun 2 (fun _ => [WriteEvent.header 200]) ⟨"GET", "/x", [], [], "1.2.3.4"⟩ 2)).2.2 =
      false) ∧
    (deliver [] (WithRateLimit 2 (fun _ => [WriteEvent.header 200])
        ⟨"GET", "/x", [], [], "1.2.3.4"⟩
        (rlRun 2 (fun _ => [WriteEvent.header 200]) ⟨"GET", "/x", [], [], "1.2.3.4"⟩ 2)).1).status =
      some 429 := by
  have h := c9_rate_limit_burst 2 (fun _ => [WriteEvent.header 200])
    ⟨"GET", "/x", [], [], "1.2.3.4"⟩
  exact ⟨(h.1 0 (by decide)).2, (h.1 1 (by decide)).2, h.2.2.1, h.2.2.2⟩

/-! ### C1 -/

/-- C1: the middleware never records a failure into the breaker — no code
path increments the counter, so the counter after a call never exceeds the
counter before it. Concretely, with threshold 1 and reset timeout 1000, one
faulting call (origin responds 500) at instant 0 followed by a call at
instant 1 — well within the reset timeout — still invokes the origin and
delivers the origin's 500, instead of the rejected-without-invocation 503
the claim requires. -/
theorem c1_origin_faults_never_counted :
    (∀ (cb : CircuitBreaker) (next : Handler) (r : Request) (now : Nat),
      ((WithCircuitBreaker cb next r now).2.1).failures ≤ cb.failures) ∧
    ((WithCircuitBreaker
        (WithCircuitBreaker ⟨1, 1000, 0, 0⟩ (fun _ => respondWithError 500 "boom")
          ⟨"GET", "/x", [], [], "a"⟩ 0).2.1
        (fun _ => respondWithError 500 "boom") ⟨"GET", "/x", [], [], "a"⟩ 1).2.2 = true ∧
      (deliver [] (WithCircuitBreaker
        (WithCircuitBreaker ⟨1, 1000, 0, 0⟩ (fun _ => respondWithError 500 "boom")
          ⟨"GET", "/x", [], [], "a"⟩ 0).2.1
        (fun _ => respondWithError 500 "boom") ⟨"GET", "/x", [], [], "a"⟩ 1).1).status =
        some 500) := by
  constructor
  · intro cb next r now
    unfold WithCircuitBreaker CircuitBreaker.isOpen
    by_cases h1 : cb.failureThreshold ≤ cb.failures <;>
      by_cases h2 : cb.resetTimeout < now - cb.lastFailure <;>
        simp [h1, h2]
  · constructor
    · decide
    · decide

/-! ### C2 -/

/-- C2: the Write-Through store is unreachable from the read path. With
prefix `p` and a successful `POST /contacts` responding 200, the entry is
stored under the key derived from the POST request itself —
`p:POST:/contacts:` — which differs from the key `p:GET:/contacts:` the
read path derives; the immediately subsequent `GET /contacts` therefore
misses the cache and invokes the origin, contradicting the claim that the
store happens under the read key and the subsequent read hits. -/
theorem c2_writeThrough_key_mismatch :
    GetKey id ⟨900, "p", [], []⟩ ⟨"POST", "/contacts", [], [], "a"⟩ ≠
      GetKey id ⟨900, "p", [], []⟩ ⟨"GET", "/contacts", [], [], "a"⟩ ∧
    storeFetch (WriteThrough.Apply id ⟨900, "p", [], []⟩
        (fun _ => [WriteEvent.header 200, WriteEvent.write [42]])
        ⟨"POST", "/contacts", [], [], "a"⟩ [] [] true).store
        (GetKey id ⟨900, "p", [], []⟩ ⟨"POST", "/contacts", [], [], "a"⟩) =
      some { status := 200, headers := [], body := [42] } ∧
    storeFetch (WriteThrough.Apply id ⟨900, "p", [], []⟩
        (fun _ => [WriteEvent.header 200, WriteEvent.write [42]])
        ⟨"POST", "/contacts", [], [], "a"⟩ [] [] true).store
        (GetKey id ⟨900, "p", [], []⟩ ⟨"GET", "/contacts", [], [], "a"⟩) = none ∧
    (WriteThrough.Apply id ⟨900, "p", [], []⟩
        (fun _ => [WriteEvent.header 200, WriteEvent.write [42]])
        ⟨"GET", "/contacts", [], [], "a"⟩
        (WriteThrough.Apply id ⟨900, "p", [], []⟩
          (fun _ => [WriteEvent.header 200, WriteEvent.write [42]])
          ⟨"POST", "/contacts", [], [], "a"⟩ [] [] true).store [] true).originInvoked =
      true := by
  refine ⟨by decide, by decide, by decide, by decide⟩

end Pipeline
